import Mathlib

/-!
# todoserver: a shallow embedding of `server.js`

`server.js` is an Express application with four routes over one Mongoose model
`Todo`.  The collection is a list of documents in insertion order, every
request is a pure function from the collection to a result and a new
collection, and the clock and the ObjectId generator are explicit inputs
(`Env`).

Three libraries are called by the source and are not part of it.  Their
behaviour is written down here once, next to the call it serves:

* express-validator: `body(f).notEmpty().withMessage(m)` and
  `validationResult(req)`;
* Mongoose: `Model.find`, `new Model(..).save()`, `Model.findByIdAndUpdate`
  with the options `new` and `runValidators`, `Model.findByIdAndDelete`, the
  `required` validator of a `String` path and the cast of a route parameter to
  an ObjectId;
* Express: a handler that calls `next(err)` is followed by the error-handling
  middleware registered with `app.use`.

Two points differ between Mongoose releases and are therefore parameters
(`Mongoose`): which strings cast to an ObjectId, and whether a key whose value
is `undefined` is dropped from an update or written as `null`.

The request body fields `Name` and `Description` are optional strings, the
type the schema declares for them; other JSON values in these two fields are
outside the model.  The store itself never fails: the only errors are the ones
the calls above produce (cast, validation, duplicate `_id`).
-/

namespace TodoServer

/-! ## Data model -/

/-- A BSON ObjectId, held as the number its bytes spell. -/
structure ObjectId where
  value : Nat
deriving DecidableEq, Repr

/-- A JavaScript `Date`, in milliseconds since the epoch. -/
abbrev Date := Nat

/-- A stored document of `todoSchema` (lines 28-41): `Name` and `Description`
of type `String`, `createdAt` of type `Date`, and the `_id` every Mongoose
document has.  A path that is `null` or absent in the collection is `none`. -/
structure Todo where
  _id : ObjectId
  Name : Option String
  Description : Option String
  createdAt : Date
deriving DecidableEq, Repr

/-- The collection behind the model `Todo`, in insertion order. -/
abbrev Db := List Todo

/-- A JavaScript `Error`: the three properties the source reads or could read. -/
structure JsError where
  name : String
  message : String
  stack : String
deriving DecidableEq, Repr

/-- What the process supplies to a request besides the collection: `Date.now()`
and the ObjectId that `new Todo(..)` generates. -/
structure Env where
  now : Date
  objectId : ObjectId
deriving DecidableEq, Repr

/-- The release-dependent behaviour of Mongoose and its BSON driver. -/
structure Mongoose where
  /-- Cast of a string to an ObjectId; `none` when the cast throws. -/
  castObjectId : String → Option ObjectId
  /-- Whether a key with value `undefined` is removed from an update
  (Mongoose 6 and later) or kept and written as `null` (Mongoose 5). -/
  omitUndefined : Bool

/-- `req.body` after `bodyParser.json()`: the two fields the handlers read and
every other field the client sent. -/
structure ReqBody where
  Name : Option String
  Description : Option String
  extra : List (String × String)
deriving DecidableEq, Repr

/-- `req.params`: the `:id` segment of the path. -/
structure Params where
  id : String
deriving DecidableEq, Repr

/-- The part of the Express request the handlers read. -/
structure Req where
  params : Params
  body : ReqBody
deriving DecidableEq, Repr

/-- One entry of `validationResult(req).array()`. -/
structure FieldValidationError where
  msg : String
  path : String
  location : String
  value : Option String
deriving DecidableEq, Repr

/-- The argument of `res.json(..)`. -/
inductive Body where
  /-- An array of documents: `res.json(todos)`. -/
  | todos (ts : List Todo)
  /-- One document: `res.json(newTodo)`, `res.json(updatedTodo)`. -/
  | todo (t : Todo)
  /-- The object `{ errors: [...] }`. -/
  | errors (es : List FieldValidationError)
  /-- An object literal whose values are strings, as a list of its fields. -/
  | object (fields : List (String × String))
deriving DecidableEq, Repr

/-- A sent response: `res.status(s).json(b)`; `res.json(b)` alone has status 200. -/
structure Response where
  status : Nat
  body : Body
deriving DecidableEq, Repr

/-- How a handler or middleware ends. -/
inductive Step where
  /-- It sent a response. -/
  | sent (r : Response)
  /-- It called `next(err)`. -/
  | next (err : JsError)
  /-- It threw, or the promise it returned was rejected. -/
  | thrown (err : JsError)
deriving DecidableEq, Repr

/-- The effect of running a handler: how it ended, the collection afterwards
and the lines written with `console.error`. -/
structure Result where
  step : Step
  db : Db
  console : List String
deriving DecidableEq, Repr

/-! ## ObjectId strings -/

/-- The value of one hexadecimal digit. -/
def hexDigit? (c : Char) : Option Nat :=
  if 48 ≤ c.toNat ∧ c.toNat ≤ 57 then some (c.toNat - 48)
  else if 97 ≤ c.toNat ∧ c.toNat ≤ 102 then some (c.toNat - 87)
  else if 65 ≤ c.toNat ∧ c.toNat ≤ 70 then some (c.toNat - 55)
  else none

/-- The number a string of hexadecimal digits spells. -/
def parseHex (cs : List Char) : Option Nat :=
  cs.foldl (fun acc c => acc.bind (fun a => (hexDigit? c).map (fun d => 16 * a + d))) (some 0)

/-- The cast every release accepts: a string of exactly 24 hexadecimal digits. -/
def hexObjectId (s : String) : Option ObjectId :=
  if s.length = 24 then (parseHex s.toList).map ObjectId.mk else none

/-- Mongoose 6 and later with the 24-digit cast. -/
def mongooseCurrent : Mongoose :=
  { castObjectId := hexObjectId, omitUndefined := true }

/-- Mongoose 5 with the 24-digit cast. -/
def mongooseLegacy : Mongoose :=
  { castObjectId := hexObjectId, omitUndefined := false }

/-! ## Mongoose: errors -/

/-- The `CastError` of a route parameter that is no ObjectId. -/
def castError (value : String) : JsError :=
  { name := "CastError"
    message := "Cast to ObjectId failed for value " ++ value ++ " at path _id for model Todo"
    stack := "CastError: Cast to ObjectId failed for value " ++ value ++ "\n    at model.Query.exec" }

/-- The `ValidationError` listing the paths whose `required` validator failed. -/
def validationError (heading : String) (paths : List String) : JsError :=
  { name := "ValidationError"
    message := heading ++ ": " ++ ", ".intercalate (paths.map (fun p => p ++ ": Path " ++ p ++ " is required."))
    stack := "ValidationError: " ++ heading ++ "\n    at model.Document.invalidate" }

/-- The server error of an insert whose `_id` is already in the collection. -/
def duplicateKeyError : JsError :=
  { name := "MongoServerError"
    message := "E11000 duplicate key error collection: todos index: _id_"
    stack := "MongoServerError: E11000 duplicate key error\n    at Collection.insertOne" }

/-! ## Mongoose: the schema and the model -/

/-- The `required: true` validator of a `String` path (lines 31 and 35): the
value is a string of non-zero length. -/
def checkRequired : Option String → Bool
  | some s => s != ""
  | none => false

/-- The paths of `todoSchema` whose `required` validator rejects the given values. -/
def todoSchema (name description : Option String) : List String :=
  (if checkRequired name then [] else ["Name"]) ++
  (if checkRequired description then [] else ["Description"])

/-- `Todo.find()`: every document of the collection. -/
def Todo.find (db : Db) : List Todo := db

/-- `Todo.findById`: the first document with the given `_id`. -/
def Todo.findById (oid : ObjectId) (db : Db) : Option Todo :=
  db.find? (fun t => t._id = oid)

/-- `new Todo({ Name, Description })` (lines 65-68): `_id` is generated and
`createdAt` takes its default `Date.now`. -/
def Todo.new (env : Env) (name description : Option String) : Todo :=
  { _id := env.objectId, Name := name, Description := description, createdAt := env.now }

/-- `todo.save()` (line 69) of a new document: validate against the schema,
then insert; the unique index on `_id` rejects a duplicate. -/
def Todo.save (doc : Todo) (db : Db) : Except JsError (Todo × Db) :=
  match todoSchema doc.Name doc.Description with
  | [] =>
    if db.any (fun t => t._id = doc._id) then .error duplicateKeyError
    else .ok (doc, db ++ [doc])
  | p :: ps => .error (validationError "Todo validation failed" (p :: ps))

/-- The update document `{ Name, Description }` of line 77; `none` is `undefined`. -/
structure Update where
  Name : Option String
  Description : Option String
deriving DecidableEq, Repr

/-- The options `{ new, runValidators }` of line 78. -/
structure QueryOptions where
  new : Bool
  runValidators : Bool
deriving DecidableEq, Repr

/-- The casted `$set` document: per path, `none` when the path is not set,
`some none` when it is set to `null`, `some (some s)` when it is set to `s`. -/
structure SetDoc where
  Name : Option (Option String)
  Description : Option (Option String)
deriving DecidableEq, Repr

/-- Cast of one key of the update. -/
def castKey (m : Mongoose) : Option String → Option (Option String)
  | some s => some (some s)
  | none => if m.omitUndefined then none else some none

/-- Cast of the update document into a `$set`. -/
def castUpdate (m : Mongoose) (u : Update) : SetDoc :=
  { Name := castKey m u.Name, Description := castKey m u.Description }

/-- Update validators (`runValidators: true`): the `required` validator of
every path the `$set` names. -/
def updateValidators (d : SetDoc) : List String :=
  (match d.Name with
    | some v => if checkRequired v then [] else ["Name"]
    | none => []) ++
  (match d.Description with
    | some v => if checkRequired v then [] else ["Description"]
    | none => [])

/-- The `$set` applied to one document: `_id` and `createdAt` are not named by
it and stay. -/
def applySet (d : SetDoc) (t : Todo) : Todo :=
  { t with Name := d.Name.getD t.Name, Description := d.Description.getD t.Description }

/-- The collection after `f` is applied to the first document with the given `_id`. -/
def updateOne (oid : ObjectId) (f : Todo → Todo) : Db → Db
  | [] => []
  | t :: ts => if t._id = oid then f t :: ts else t :: updateOne oid f ts

/-- The collection after the first document with the given `_id` is removed. -/
def deleteOne (oid : ObjectId) : Db → Db
  | [] => []
  | t :: ts => if t._id = oid then ts else t :: deleteOne oid ts

/-- `Todo.findByIdAndUpdate(id, update, options)` (lines 75-79): cast the id,
cast the update, run the update validators when asked to, then update the
first matching document.  The result is the document (after the update when
`new` is set, before it otherwise) or `null`. -/
def Todo.findByIdAndUpdate (m : Mongoose) (id : String) (u : Update) (o : QueryOptions)
    (db : Db) : Except JsError (Option Todo × Db) :=
  match m.castObjectId id with
  | none => .error (castError id)
  | some oid =>
    match (if o.runValidators then updateValidators (castUpdate m u) else []) with
    | [] =>
      match Todo.findById oid db with
      | none => .ok (none, db)
      | some t =>
        .ok (some (if o.new then applySet (castUpdate m u) t else t),
             updateOne oid (applySet (castUpdate m u)) db)
    | p :: ps => .error (validationError "Validation failed" (p :: ps))

/-- `Todo.findByIdAndDelete(id)` (line 87): cast the id, remove the first
matching document and return it, or `null`. -/
def Todo.findByIdAndDelete (m : Mongoose) (id : String) (db : Db) :
    Except JsError (Option Todo × Db) :=
  match m.castObjectId id with
  | none => .error (castError id)
  | some oid =>
    match Todo.findById oid db with
    | none => .ok (none, db)
    | some t => .ok (some t, deleteOne oid db)

/-! ## express-validator -/

/-- The standard validator `notEmpty()`: the field value, with `undefined`
read as the empty string, has non-zero length. -/
def notEmpty : Option String → Bool
  | some s => s != ""
  | none => false

/-- `body(field).notEmpty().withMessage(msg)` run on the value of the field:
the errors it records. -/
def body (field msg : String) (v : Option String) : List FieldValidationError :=
  if notEmpty v then [] else [{ msg := msg, path := field, location := "body", value := v }]

/-- `validationResult(req).array()` after the two chains of lines 57-58. -/
def validationResult (req : Req) : List FieldValidationError :=
  body "Name" "Name is required" req.body.Name ++
  body "Description" "Description is required" req.body.Description

/-! ## Route handlers -/

/-- An `async (req, res) => ..` function, or a middleware `(req, res, next) => ..`. -/
abbrev Handler := Env → Req → Db → Result

/-- `res.status(status).json(b)`. -/
def send (status : Nat) (b : Body) (db : Db) : Result :=
  { step := .sent { status := status, body := b }, db := db, console := [] }

/-- A store call that rejects: the handler's promise is rejected with the error. -/
def reject (err : JsError) (db : Db) : Result :=
  { step := .thrown err, db := db, console := [] }

/-- The handler of `GET /api/todos` (lines 51-54). -/
def getTodos : Handler := fun _ _ db =>
  send 200 (.todos (Todo.find db)) db

/-- The handler of `POST /api/todos` (lines 59-71). -/
def postTodo : Handler := fun env req db =>
  match validationResult req with
  | e :: es => send 400 (.errors (e :: es)) db
  | [] =>
    match Todo.save (Todo.new env req.body.Name req.body.Description) db with
    | .error err => reject err db
    | .ok (newTodo, db2) => send 201 (.todo newTodo) db2

/-- The handler of `PUT /api/todos/:id` (lines 73-84). -/
def putTodo (m : Mongoose) : Handler := fun _ req db =>
  match Todo.findByIdAndUpdate m req.params.id
      { Name := req.body.Name, Description := req.body.Description }
      { new := true, runValidators := true } db with
  | .error err => reject err db
  | .ok (none, db2) => send 404 (.object [("message", "Todo not found")]) db2
  | .ok (some updatedTodo, db2) => send 200 (.todo updatedTodo) db2

/-- The handler of `DELETE /api/todos/:id` (lines 86-92). -/
def deleteTodo (m : Mongoose) : Handler := fun _ req db =>
  match Todo.findByIdAndDelete m req.params.id db with
  | .error err => reject err db
  | .ok (none, db2) => send 404 (.object [("message", "Todo not found")]) db2
  | .ok (some _, db2) => send 200 (.object [("message", "Todo deleted")]) db2

/-! ## The Express chain -/

/-- `asyncHandler` (lines 46-48): `Promise.resolve(fn(req, res, next)).catch(next)`,
a rejection of `fn` becomes the call `next(err)`. -/
def asyncHandler (fn : Handler) : Handler := fun env req db =>
  match (fn env req db).step with
  | .thrown err => { fn env req db with step := .next err }
  | _ => fn env req db

/-- The error-handling middleware (lines 95-98). -/
def errorMiddleware (err : JsError) : Handler := fun _ _ db =>
  { step := .sent { status := 500,
                    body := .object [("message", "Something went wrong!"), ("error", err.message)] }
    db := db
    console := [err.stack] }

/-- Express on a route registered as `asyncHandler(fn)`: when the route ends
with `next(err)`, or throws, the error-handling middleware runs next. -/
def serve (fn : Handler) : Handler := fun env req db =>
  match (asyncHandler fn env req db).step with
  | .sent _ => asyncHandler fn env req db
  | .next err | .thrown err =>
    { errorMiddleware err env req (asyncHandler fn env req db).db with
      console := (asyncHandler fn env req db).console ++
        (errorMiddleware err env req (asyncHandler fn env req db).db).console }

/-- The four routes of the application. -/
inductive Route where
  | list
  | create
  | update
  | delete
deriving DecidableEq, Repr

/-- The handler registered for each route. -/
def Route.handler (m : Mongoose) : Route → Handler
  | .list => getTodos
  | .create => postTodo
  | .update => putTodo m
  | .delete => deleteTodo m

/-- The application: one request on one route. -/
def app (m : Mongoose) (r : Route) : Handler :=
  serve (r.handler m)

/-- A run of the application: the collection after a sequence of requests. -/
def run (m : Mongoose) : List (Route × Env × Req) → Db → Db
  | [], db => db
  | (r, env, req) :: rest, db => run m rest (app m r env req db).db

/-- The status of the response, when one was sent. -/
def Result.status? (r : Result) : Option Nat :=
  match r.step with
  | .sent resp => some resp.status
  | _ => none

/-- The body of the response, when one was sent. -/
def Result.body? (r : Result) : Option Body :=
  match r.step with
  | .sent resp => some resp.body
  | _ => none

/-- The body of the response of the error-handling middleware. -/
def errorBody (err : JsError) : Body :=
  .object [("message", "Something went wrong!"), ("error", err.message)]

/-- The invariant of the collection: every document has a non-empty `Name`
and a non-empty `Description`, and the `_id`s are pairwise different. -/
def StoreInvariant (db : Db) : Prop :=
  (∀ t ∈ db, (∃ n, t.Name = some n ∧ n ≠ "") ∧ (∃ d, t.Description = some d ∧ d ≠ "")) ∧
  (db.map (fun t => t._id)).Nodup

/-! ## Sample values -/

/-- A clock reading and a generated ObjectId. -/
def sampleEnv : Env := { now := 1700000000000, objectId := { value := 7 } }

/-- A route parameter of 24 hexadecimal digits; it casts to the ObjectId 10. -/
def sampleId : String := "00000000000000000000000a"

/-- A stored document whose `_id` is the one `sampleId` spells. -/
def sampleTodo : Todo :=
  { _id := { value := 10 }, Name := some "Buy milk", Description := some "2%",
    createdAt := 1600000000000 }

/-- A request with the given route parameter and body fields, and a
client-supplied `createdAt` besides. -/
def sampleReq (id : String) (name description : Option String) : Req :=
  { params := { id := id },
    body := { Name := name, Description := description, extra := [("createdAt", "1999-01-01")] } }

/-! ## Lemmas on the collection -/

theorem findById_nil (oid : ObjectId) : Todo.findById oid [] = none := rfl

theorem findById_cons (oid : ObjectId) (t : Todo) (ts : Db) :
    Todo.findById oid (t :: ts) = if t._id = oid then some t else Todo.findById oid ts := by
  unfold Todo.findById
  by_cases h : t._id = oid <;> simp [List.find?_cons, h]

theorem findById_eq_none (oid : ObjectId) (db : Db) :
    Todo.findById oid db = none ↔ ∀ t ∈ db, t._id ≠ oid := by
  induction db with
  | nil => simp [findById_nil]
  | cons t ts ih =>
    rw [findById_cons]
    by_cases h : t._id = oid
    · simp [h]
    · simp [h, ih]

theorem findById_some_id {oid : ObjectId} {db : Db} {old : Todo}
    (h : Todo.findById oid db = some old) : old._id = oid := by
  induction db with
  | nil => simp [findById_nil] at h
  | cons t ts ih =>
    rw [findById_cons] at h
    by_cases hid : t._id = oid
    · simp [hid] at h
      subst h
      exact hid
    · simp [hid] at h
      exact ih h

theorem findById_isSome_of_mem {oid : ObjectId} {db : Db}
    (h : ∃ t ∈ db, t._id = oid) : ∃ old, Todo.findById oid db = some old := by
  cases hf : Todo.findById oid db with
  | some old => exact ⟨old, rfl⟩
  | none =>
    obtain ⟨t, ht, hid⟩ := h
    exact absurd hid ((findById_eq_none oid db).1 hf t ht)

/-- The first document with the given `_id` splits the collection; updating
and deleting act at that position only. -/
theorem findById_split {oid : ObjectId} {db : Db} {old : Todo} (f : Todo → Todo)
    (h : Todo.findById oid db = some old) :
    ∃ pre post, db = pre ++ old :: post ∧ (∀ t ∈ pre, t._id ≠ oid) ∧
      updateOne oid f db = pre ++ f old :: post ∧ deleteOne oid db = pre ++ post := by
  induction db with
  | nil => simp [findById_nil] at h
  | cons t ts ih =>
    rw [findById_cons] at h
    by_cases hid : t._id = oid
    · simp [hid] at h
      subst h
      exact ⟨[], ts, by simp, by simp, by simp [updateOne, hid], by simp [deleteOne, hid]⟩
    · simp [hid] at h
      obtain ⟨pre, post, hdb, hpre, hupd, hdel⟩ := ih h
      refine ⟨t :: pre, post, by simp [hdb], ?_, by simp [updateOne, hid, hupd],
        by simp [deleteOne, hid, hdel]⟩
      intro s hs
      rcases List.mem_cons.1 hs with rfl | hs
      · exact hid
      · exact hpre s hs

theorem findById_updateOne (oid : ObjectId) (f : Todo → Todo) (hf : ∀ t, (f t)._id = t._id)
    (db : Db) : Todo.findById oid (updateOne oid f db) = (Todo.findById oid db).map f := by
  induction db with
  | nil => rfl
  | cons t ts ih =>
    by_cases hid : t._id = oid
    · simp [updateOne, hid, findById_cons, hf]
    · simp [updateOne, hid, findById_cons, ih]

theorem updateOne_idem (oid : ObjectId) (f : Todo → Todo) (hf : ∀ t, (f t)._id = t._id)
    (hff : ∀ t, f (f t) = f t) (db : Db) :
    updateOne oid f (updateOne oid f db) = updateOne oid f db := by
  induction db with
  | nil => rfl
  | cons t ts ih =>
    by_cases hid : t._id = oid
    · simp [updateOne, hid, hf, hff]
    · simp [updateOne, hid, ih]

theorem map_id_updateOne (oid : ObjectId) (f : Todo → Todo) (hf : ∀ t, (f t)._id = t._id)
    (db : Db) : (updateOne oid f db).map (fun t => t._id) = db.map (fun t => t._id) := by
  induction db with
  | nil => rfl
  | cons t ts ih =>
    by_cases hid : t._id = oid
    · simp [updateOne, hid, hf]
    · simp [updateOne, hid, ih]

theorem mem_updateOne {oid : ObjectId} {f : Todo → Todo} {db : Db} {s : Todo}
    (h : s ∈ updateOne oid f db) : s ∈ db ∨ ∃ t ∈ db, s = f t := by
  induction db with
  | nil => simp [updateOne] at h
  | cons t ts ih =>
    by_cases hid : t._id = oid
    · simp only [updateOne, hid, if_true, List.mem_cons] at h
      rcases h with rfl | h
      · exact Or.inr ⟨t, List.mem_cons_self t ts, rfl⟩
      · exact Or.inl (List.mem_cons_of_mem t h)
    · simp only [updateOne, hid, if_false, List.mem_cons] at h
      rcases h with rfl | h
      · exact Or.inl (List.mem_cons_self _ ts)
      · rcases ih h with h1 | ⟨u, hu, rfl⟩
        · exact Or.inl (List.mem_cons_of_mem t h1)
        · exact Or.inr ⟨u, List.mem_cons_of_mem t hu, rfl⟩

theorem deleteOne_sublist (oid : ObjectId) (db : Db) : (deleteOne oid db).Sublist db := by
  induction db with
  | nil => exact List.Sublist.refl _
  | cons t ts ih =>
    by_cases hid : t._id = oid
    · simp [deleteOne, hid]
    · simp [deleteOne, hid, ih]

theorem applySet_id (d : SetDoc) (t : Todo) : (applySet d t)._id = t._id := rfl

theorem applySet_idem (d : SetDoc) (t : Todo) : applySet d (applySet d t) = applySet d t := by
  obtain ⟨n, ds⟩ := d
  cases n <;> cases ds <;> rfl

/-! ## Lemmas on the Express chain -/

theorem serve_of_sent {fn : Handler} {env : Env} {req : Req} {db : Db} {r : Response}
    (h : (fn env req db).step = .sent r) : serve fn env req db = fn env req db := by
  simp [serve, asyncHandler, h]

theorem serve_of_thrown {fn : Handler} {env : Env} {req : Req} {db db2 : Db} {err : JsError}
    {c : List String} (h : fn env req db = { step := .thrown err, db := db2, console := c }) :
    serve fn env req db =
      { step := .sent { status := 500, body := errorBody err }, db := db2,
        console := c ++ [err.stack] } := by
  simp [serve, asyncHandler, h, errorMiddleware, errorBody]

theorem body_eq_nil_iff (field msg : String) (v : Option String) :
    body field msg v = [] ↔ ∃ s, v = some s ∧ s ≠ "" := by
  cases v with
  | none => simp [body, notEmpty]
  | some s => by_cases hs : s = "" <;> simp [body, notEmpty, hs]

theorem validationResult_eq_nil_iff (req : Req) :
    validationResult req = [] ↔
      (∃ n, req.body.Name = some n ∧ n ≠ "") ∧ (∃ d, req.body.Description = some d ∧ d ≠ "") := by
  simp [validationResult, body_eq_nil_iff]

theorem checkRequired_iff (v : Option String) : checkRequired v = true ↔ ∃ s, v = some s ∧ s ≠ "" := by
  cases v with
  | none => simp [checkRequired]
  | some s => simp [checkRequired]

theorem postTodo_invalid {req : Req} (env : Env) (db : Db) (h : validationResult req ≠ []) :
    postTodo env req db = send 400 (.errors (validationResult req)) db := by
  unfold postTodo
  cases hv : validationResult req with
  | nil => exact absurd hv h
  | cons e es => rfl

theorem postTodo_valid {req : Req} (env : Env) (db : Db) {name description : String}
    (hn : req.body.Name = some name) (hne : name ≠ "")
    (hd : req.body.Description = some description) (hde : description ≠ "") :
    postTodo env req db =
      if db.any (fun t => t._id = env.objectId) then reject duplicateKeyError db
      else send 201 (.todo (Todo.new env (some name) (some description)))
        (db ++ [Todo.new env (some name) (some description)]) := by
  have hv : validationResult req = [] :=
    (validationResult_eq_nil_iff req).2 ⟨⟨name, hn, hne⟩, ⟨description, hd, hde⟩⟩
  unfold postTodo
  rw [hv, hn, hd]
  simp only [Todo.save, Todo.new, todoSchema, checkRequired]
  by_cases hdup : (db.any (fun t => t._id = env.objectId)) = true
  · simp [hne, hde, hdup]
  · simp only [Bool.not_eq_true] at hdup
    simp [hne, hde, hdup]

theorem putTodo_cast_none {m : Mongoose} {req : Req} (env : Env) (db : Db)
    (h : m.castObjectId req.params.id = none) :
    putTodo m env req db = reject (castError req.params.id) db := by
  simp [putTodo, Todo.findByIdAndUpdate, h]

theorem putTodo_invalid {m : Mongoose} {req : Req} {oid : ObjectId} {p : String}
    {ps : List String} (env : Env) (db : Db) (h : m.castObjectId req.params.id = some oid)
    (hv : updateValidators (castUpdate m { Name := req.body.Name, Description := req.body.Description })
      = p :: ps) :
    putTodo m env req db = reject (validationError "Validation failed" (p :: ps)) db := by
  simp [putTodo, Todo.findByIdAndUpdate, h, hv]

theorem putTodo_none {m : Mongoose} {req : Req} {oid : ObjectId} (env : Env) {db : Db}
    (h : m.castObjectId req.params.id = some oid)
    (hv : updateValidators (castUpdate m { Name := req.body.Name, Description := req.body.Description })
      = [])
    (hf : Todo.findById oid db = none) :
    putTodo m env req db = send 404 (.object [("message", "Todo not found")]) db := by
  simp [putTodo, Todo.findByIdAndUpdate, h, hv, hf]

theorem putTodo_some {m : Mongoose} {req : Req} {oid : ObjectId} (env : Env) {db : Db} {old : Todo}
    (h : m.castObjectId req.params.id = some oid)
    (hv : updateValidators (castUpdate m { Name := req.body.Name, Description := req.body.Description })
      = [])
    (hf : Todo.findById oid db = some old) :
    putTodo m env req db =
      send 200
        (.todo (applySet (castUpdate m { Name := req.body.Name, Description := req.body.Description }) old))
        (updateOne oid
          (applySet (castUpdate m { Name := req.body.Name, Description := req.body.Description })) db) := by
  simp [putTodo, Todo.findByIdAndUpdate, h, hv, hf]

theorem deleteTodo_cast_none {m : Mongoose} {req : Req} (env : Env) (db : Db)
    (h : m.castObjectId req.params.id = none) :
    deleteTodo m env req db = reject (castError req.params.id) db := by
  simp [deleteTodo, Todo.findByIdAndDelete, h]

theorem deleteTodo_none {m : Mongoose} {req : Req} {oid : ObjectId} (env : Env) {db : Db}
    (h : m.castObjectId req.params.id = some oid) (hf : Todo.findById oid db = none) :
    deleteTodo m env req db = send 404 (.object [("message", "Todo not found")]) db := by
  simp [deleteTodo, Todo.findByIdAndDelete, h, hf]

theorem deleteTodo_some {m : Mongoose} {req : Req} {oid : ObjectId} (env : Env) {db : Db} {old : Todo}
    (h : m.castObjectId req.params.id = some oid) (hf : Todo.findById oid db = some old) :
    deleteTodo m env req db = send 200 (.object [("message", "Todo deleted")]) (deleteOne oid db) := by
  simp [deleteTodo, Todo.findByIdAndDelete, h, hf]

theorem app_of_send {m : Mongoose} {r : Route} {env : Env} {req : Req} {db db2 : Db} {status : Nat}
    {b : Body} (h : r.handler m env req db = send status b db2) :
    app m r env req db = send status b db2 := by
  unfold app
  rw [serve_of_sent (r := { status := status, body := b }) (by rw [h]; rfl), h]

theorem app_of_reject {m : Mongoose} {r : Route} {env : Env} {req : Req} {db db2 : Db}
    {err : JsError} (h : r.handler m env req db = reject err db2) :
    app m r env req db =
      { step := .sent { status := 500, body := errorBody err }, db := db2, console := [err.stack] } := by
  unfold app
  rw [serve_of_thrown (c := []) (by rw [h]; rfl)]
  rfl

theorem updateValidators_valid (m : Mongoose) {name description : String} (hne : name ≠ "")
    (hde : description ≠ "") :
    updateValidators (castUpdate m { Name := some name, Description := some description }) = [] := by
  simp [updateValidators, castUpdate, castKey, checkRequired, hne, hde]

theorem updateValidators_empty_string (m : Mongoose) {n d : Option String}
    (h : n = some "" ∨ d = some "") :
    ∃ p ps, updateValidators (castUpdate m { Name := n, Description := d }) = p :: ps := by
  have hne : updateValidators (castUpdate m { Name := n, Description := d }) ≠ [] := by
    rcases h with h | h
    · subst h
      simp [updateValidators, castUpdate, castKey, checkRequired]
    · subst h
      simp [updateValidators, castUpdate, castKey, checkRequired]
  cases hv : updateValidators (castUpdate m { Name := n, Description := d }) with
  | nil => exact absurd hv hne
  | cons p ps => exact ⟨p, ps, rfl⟩

/-! ## C1: Create with a missing or empty field -/

/-- C1: for every collection and every request body in which `Name` or
`Description` is missing or the empty string, `POST /api/todos` records at
least one validation error, responds 400 with the body `{ errors: [...] }`
holding these errors, logs nothing, and leaves the collection as it was, so
the number of records is unchanged. -/
theorem create_missing_field_rejected (m : Mongoose) (env : Env) (req : Req) (db : Db)
    (h : req.body.Name = none ∨ req.body.Name = some "" ∨
      req.body.Description = none ∨ req.body.Description = some "") :
    validationResult req ≠ [] ∧
    app m .create env req db =
      { step := .sent { status := 400, body := .errors (validationResult req) },
        db := db, console := [] } ∧
    (app m .create env req db).db = db ∧
    (app m .create env req db).db.length = db.length := by
  have hv : validationResult req ≠ [] := by
    intro hnil
    obtain ⟨⟨n, hn, hne⟩, ⟨d, hd, hde⟩⟩ := (validationResult_eq_nil_iff req).1 hnil
    rcases h with h | h | h | h
    · rw [hn] at h; cases h
    · rw [hn] at h; exact hne (Option.some.inj h)
    · rw [hd] at h; cases h
    · rw [hd] at h; exact hde (Option.some.inj h)
  have happ : app m .create env req db = send 400 (.errors (validationResult req)) db :=
    app_of_send (postTodo_invalid env db hv)
  refine ⟨hv, happ, ?_, ?_⟩ <;> rw [happ] <;> rfl

/-- A body without `Name` on a collection of one record: 400, one error, the record kept. -/
theorem create_missing_field_rejected_witness :
    (sampleReq "" none (some "2%")).body.Name = none ∧
    app mongooseCurrent .create sampleEnv (sampleReq "" none (some "2%")) [sampleTodo] =
      { step := .sent { status := 400,
                        body := .errors [{ msg := "Name is required", path := "Name",
                                           location := "body", value := none }] },
        db := [sampleTodo], console := [] } :=
  ⟨rfl, (create_missing_field_rejected mongooseCurrent sampleEnv (sampleReq "" none (some "2%"))
    [sampleTodo] (Or.inl rfl)).2.1⟩

/-! ## C2: Create, then List -/

/-- C2: for every collection and every body whose `Name` and `Description`
are non-empty strings: whenever Create responds 201, the body is the created
record, its `Name` and `Description` are the ones of the request, its `_id` and
`createdAt` are the generated ObjectId and the clock reading, its `_id` differs
from the `_id` of every record already stored, and a List issued afterwards
responds 200 with the previous records followed by exactly this one record;
and Create does respond 201 when the generated ObjectId is not yet in the
collection. -/
theorem create_then_list (m : Mongoose) (env envL : Env) (req reqL : Req) (db : Db)
    (name description : String)
    (hn : req.body.Name = some name) (hne : name ≠ "")
    (hd : req.body.Description = some description) (hde : description ≠ "") :
    ((∀ t ∈ db, t._id ≠ env.objectId) →
      app m .create env req db =
        { step := .sent { status := 201,
                          body := .todo { _id := env.objectId, Name := some name,
                                          Description := some description, createdAt := env.now } },
          db := db ++ [{ _id := env.objectId, Name := some name,
                         Description := some description, createdAt := env.now }],
          console := [] }) ∧
    (∀ b, (app m .create env req db).step = .sent { status := 201, body := b } →
      b = .todo { _id := env.objectId, Name := some name, Description := some description,
                  createdAt := env.now } ∧
      (∀ t ∈ db, t._id ≠ env.objectId) ∧
      app m .list envL reqL db =
        { step := .sent { status := 200, body := .todos db }, db := db, console := [] } ∧
      app m .list envL reqL (app m .create env req db).db =
        { step := .sent { status := 200,
                          body := .todos (db ++ [{ _id := env.objectId, Name := some name,
                                                   Description := some description,
                                                   createdAt := env.now }]) },
          db := db ++ [{ _id := env.objectId, Name := some name,
                         Description := some description, createdAt := env.now }],
          console := [] }) := by
  have hpost := postTodo_valid env db hn hne hd hde
  by_cases hdup : (db.any (fun t => t._id = env.objectId)) = true
  · rw [if_pos hdup] at hpost
    have happ := app_of_reject (m := m) (r := .create) hpost
    refine ⟨?_, ?_⟩
    · intro hfresh
      obtain ⟨t, ht, hid⟩ := List.any_eq_true.1 hdup
      exact absurd (of_decide_eq_true hid) (hfresh t ht)
    · intro b hb
      rw [happ] at hb
      simp at hb
  · rw [if_neg hdup] at hpost
    have happ := app_of_send (m := m) (r := .create) hpost
    have hfresh : ∀ t ∈ db, t._id ≠ env.objectId := by
      intro t ht hid
      exact hdup (List.any_eq_true.2 ⟨t, ht, decide_eq_true hid⟩)
    refine ⟨fun _ => happ, ?_⟩
    intro b hb
    rw [happ] at hb ⊢
    simp only [send, Step.sent.injEq, Response.mk.injEq, true_and] at hb
    refine ⟨hb.symm, hfresh, rfl, rfl⟩

/-- A fresh ObjectId and a valid body: 201, then List returns the old record and the new one. -/
theorem create_then_list_witness :
    (∀ t ∈ [sampleTodo], t._id ≠ sampleEnv.objectId) ∧
    app mongooseCurrent .create sampleEnv (sampleReq "" (some "Buy oat milk") (some "1l"))
        [sampleTodo] =
      { step := .sent { status := 201,
                        body := .todo { _id := { value := 7 }, Name := some "Buy oat milk",
                                        Description := some "1l", createdAt := 1700000000000 } },
        db := [sampleTodo,
          { _id := { value := 7 }, Name := some "Buy oat milk", Description := some "1l",
            createdAt := 1700000000000 }],
        console := [] } ∧
    app mongooseCurrent .list sampleEnv (sampleReq "" none none)
        (app mongooseCurrent .create sampleEnv (sampleReq "" (some "Buy oat milk") (some "1l"))
          [sampleTodo]).db =
      { step := .sent { status := 200,
                        body := .todos [sampleTodo,
                          { _id := { value := 7 }, Name := some "Buy oat milk",
                            Description := some "1l", createdAt := 1700000000000 }] },
        db := [sampleTodo,
          { _id := { value := 7 }, Name := some "Buy oat milk", Description := some "1l",
            createdAt := 1700000000000 }],
        console := [] } :=
  ⟨by decide,
   (create_then_list mongooseCurrent sampleEnv sampleEnv
      (sampleReq "" (some "Buy oat milk") (some "1l")) (sampleReq "" none none) [sampleTodo]
      "Buy oat milk" "1l" rfl (by decide) rfl (by decide)).1 (by decide),
   ((create_then_list mongooseCurrent sampleEnv sampleEnv
      (sampleReq "" (some "Buy oat milk") (some "1l")) (sampleReq "" none none) [sampleTodo]
      "Buy oat milk" "1l" rfl (by decide) rfl (by decide)).2
    (.todo { _id := { value := 7 }, Name := some "Buy oat milk", Description := some "1l",
             createdAt := 1700000000000 })
    (by decide)).2.2.2⟩

/-! ## C3: Update and Delete on an id that is not stored -/

/-- C3, as stated, fails: on the empty collection, where no id is the id of a
stored record, Delete with the route parameter `nope` responds 500 because the
parameter does not cast to an ObjectId, and Update with a well-formed id and
the body `{ Name: "", Description: "2%" }` responds 500 because the update
validators reject the body before the collection is searched.  In both cases
the handler's promise is rejected and the error-handling middleware answers. -/
theorem unknown_id_not_always_404 :
    (deleteTodo mongooseCurrent sampleEnv (sampleReq "nope" none none) []).step =
      .thrown (castError "nope") ∧
    (app mongooseCurrent .delete sampleEnv (sampleReq "nope" none none) []).status? = some 500 ∧
    (putTodo mongooseCurrent sampleEnv (sampleReq sampleId (some "") (some "2%")) []).step =
      .thrown (validationError "Validation failed" ["Name"]) ∧
    (app mongooseCurrent .update sampleEnv (sampleReq sampleId (some "") (some "2%")) []).status?
      = some 500 := by
  decide

/-- C3, amended: when the route parameter casts to an ObjectId that is the
`_id` of no stored record, Delete responds 404 with `{ message: 'Todo not
found' }` for every body, and so does Update for every body that passes the
update validators (`Name` and `Description` are not the empty string, and are
present unless this release drops undefined keys); the handler itself sends
the response, nothing is logged, and the collection is unchanged. -/
theorem unknown_castable_id_404 (m : Mongoose) (env : Env) (req : Req) (db : Db) (oid : ObjectId)
    (hcast : m.castObjectId req.params.id = some oid)
    (habsent : ∀ t ∈ db, t._id ≠ oid) :
    deleteTodo m env req db =
      { step := .sent { status := 404, body := .object [("message", "Todo not found")] },
        db := db, console := [] } ∧
    app m .delete env req db =
      { step := .sent { status := 404, body := .object [("message", "Todo not found")] },
        db := db, console := [] } ∧
    (req.body.Name ≠ some "" → req.body.Description ≠ some "" →
      (m.omitUndefined = true ∨ (req.body.Name ≠ none ∧ req.body.Description ≠ none)) →
      putTodo m env req db =
        { step := .sent { status := 404, body := .object [("message", "Todo not found")] },
          db := db, console := [] } ∧
      app m .update env req db =
        { step := .sent { status := 404, body := .object [("message", "Todo not found")] },
          db := db, console := [] }) := by
  have hf : Todo.findById oid db = none := (findById_eq_none oid db).2 habsent
  have hdel := deleteTodo_none env hcast hf
  refine ⟨hdel, app_of_send (r := .delete) hdel, ?_⟩
  intro hN hD hU
  have hv : updateValidators
      (castUpdate m { Name := req.body.Name, Description := req.body.Description }) = [] := by
    cases hname : req.body.Name with
    | none =>
      cases hdesc : req.body.Description with
      | none =>
        rcases hU with hU | ⟨h1, _⟩
        · simp [updateValidators, castUpdate, castKey, hU]
        · exact absurd hname h1
      | some d =>
        have hd : d ≠ "" := fun h => hD (by rw [hdesc, h])
        rcases hU with hU | ⟨h1, _⟩
        · simp [updateValidators, castUpdate, castKey, hU, checkRequired, hd]
        · exact absurd hname h1
    | some n =>
      have hn : n ≠ "" := fun h => hN (by rw [hname, h])
      cases hdesc : req.body.Description with
      | none =>
        rcases hU with hU | ⟨_, h2⟩
        · simp [updateValidators, castUpdate, castKey, hU, checkRequired, hn]
        · exact absurd hdesc h2
      | some d =>
        have hd : d ≠ "" := fun h => hD (by rw [hdesc, h])
        simp [updateValidators, castUpdate, castKey, checkRequired, hn, hd]
  have hput := putTodo_none env hcast hv hf
  exact ⟨hput, app_of_send (r := .update) hput⟩

/-- A well-formed id that is not stored: Delete on the empty collection and Update on a collection holding another record both respond 404. -/
theorem unknown_castable_id_404_witness :
    hexObjectId sampleId = some { value := 10 } ∧
    app mongooseCurrent .delete sampleEnv (sampleReq sampleId none none) [] =
      { step := .sent { status := 404, body := .object [("message", "Todo not found")] },
        db := [], console := [] } ∧
    app mongooseLegacy .update sampleEnv (sampleReq sampleId (some "Buy milk") (some "2%"))
        [{ _id := { value := 11 }, Name := some "a", Description := some "b", createdAt := 5 }] =
      { step := .sent { status := 404, body := .object [("message", "Todo not found")] },
        db := [{ _id := { value := 11 }, Name := some "a", Description := some "b",
                 createdAt := 5 }],
        console := [] } :=
  ⟨by decide,
   (unknown_castable_id_404 mongooseCurrent sampleEnv (sampleReq sampleId none none) []
      { value := 10 } (by decide) (by simp)).2.1,
   ((unknown_castable_id_404 mongooseLegacy sampleEnv
      (sampleReq sampleId (some "Buy milk") (some "2%"))
      [{ _id := { value := 11 }, Name := some "a", Description := some "b", createdAt := 5 }]
      { value := 10 } (by decide) (by decide)).2.2
      (by decide) (by decide) (Or.inr ⟨by decide, by decide⟩)).2⟩

/-! ## C7: errors reach the error-handling middleware -/

/-- C7: for every handler and every error with which it rejects,
`asyncHandler` turns the rejection into the call `next(err)` and keeps what the
handler did to the collection; the error-handling middleware then logs the
stack and sends status 500 with a body of exactly two fields, `message` with
the fixed text and `error` with the message of the error; it sends, so it
neither throws nor calls `next`, and the stack is only logged. -/
theorem handler_error_becomes_500 (fn : Handler) (env : Env) (req : Req) (db db2 : Db)
    (err : JsError) (c : List String)
    (h : fn env req db = { step := .thrown err, db := db2, console := c }) :
    asyncHandler fn env req db = { step := .next err, db := db2, console := c } ∧
    errorMiddleware err env req db2 =
      { step := .sent { status := 500,
                        body := .object [("message", "Something went wrong!"),
                                         ("error", err.message)] },
        db := db2, console := [err.stack] } ∧
    serve fn env req db =
      { step := .sent { status := 500,
                        body := .object [("message", "Something went wrong!"),
                                         ("error", err.message)] },
        db := db2, console := c ++ [err.stack] } := by
  refine ⟨?_, rfl, serve_of_thrown h⟩
  simp [asyncHandler, h]

/-- The Delete handler rejects on the parameter `nope`; the application answers 500 and logs the stack. -/
theorem handler_error_becomes_500_witness :
    deleteTodo mongooseCurrent sampleEnv (sampleReq "nope" none none) [sampleTodo] =
      { step := .thrown (castError "nope"), db := [sampleTodo], console := [] } ∧
    app mongooseCurrent .delete sampleEnv (sampleReq "nope" none none) [sampleTodo] =
      { step := .sent { status := 500,
                        body := .object [("message", "Something went wrong!"),
                                         ("error", (castError "nope").message)] },
        db := [sampleTodo], console := [] ++ [(castError "nope").stack] } :=
  ⟨by decide,
   (handler_error_becomes_500 (deleteTodo mongooseCurrent) sampleEnv (sampleReq "nope" none none)
      [sampleTodo] [sampleTodo] (castError "nope") [] (by decide)).2.2⟩

/-! ## C4: Update of a stored record -/

/-- C4: when the route parameter casts to the `_id` of a stored record and the
body holds a non-empty `Name` and a non-empty `Description`, Update responds
200 with the record as it is after the update: `Name` and `Description` are
the ones of the body, `_id` and `createdAt` are the ones the record had.  The
collection afterwards is the collection before with this one record replaced
in place; every other record and the number of records are unchanged. -/
theorem update_existing (m : Mongoose) (env : Env) (req : Req) (db : Db) (oid : ObjectId)
    (name description : String)
    (hcast : m.castObjectId req.params.id = some oid)
    (hmem : ∃ t ∈ db, t._id = oid)
    (hn : req.body.Name = some name) (hne : name ≠ "")
    (hd : req.body.Description = some description) (hde : description ≠ "") :
    ∃ pre old post,
      db = pre ++ old :: post ∧ old._id = oid ∧ (∀ t ∈ pre, t._id ≠ oid) ∧
      app m .update env req db =
        { step := .sent { status := 200,
                          body := .todo { _id := old._id, Name := some name,
                                          Description := some description,
                                          createdAt := old.createdAt } },
          db := pre ++ { _id := old._id, Name := some name, Description := some description,
                         createdAt := old.createdAt } :: post,
          console := [] } ∧
      (app m .update env req db).db.length = db.length := by
  obtain ⟨old, hf⟩ := findById_isSome_of_mem hmem
  have hv : updateValidators
      (castUpdate m { Name := req.body.Name, Description := req.body.Description }) = [] := by
    rw [hn, hd]
    exact updateValidators_valid m hne hde
  have hput := putTodo_some env hcast hv hf
  obtain ⟨pre, post, hdb, hpre, hupd, _⟩ := findById_split
    (applySet (castUpdate m { Name := req.body.Name, Description := req.body.Description })) hf
  have happ : app m .update env req db = _ := app_of_send (r := .update) hput
  rw [hupd, hn, hd] at happ
  refine ⟨pre, old, post, hdb, findById_some_id hf, hpre, happ, ?_⟩
  rw [happ, hdb]
  simp [send]

/-- Update of the one stored record with a valid body. -/
theorem update_existing_witness :
    hexObjectId sampleId = some { value := 10 } ∧
    ∃ pre old post,
      [sampleTodo] = pre ++ old :: post ∧ old._id = { value := 10 } ∧
      (∀ t ∈ pre, t._id ≠ { value := 10 }) ∧
      app mongooseCurrent .update sampleEnv (sampleReq sampleId (some "Buy oat milk") (some "2%"))
          [sampleTodo] =
        { step := .sent { status := 200,
                          body := .todo { _id := old._id, Name := some "Buy oat milk",
                                          Description := some "2%",
                                          createdAt := old.createdAt } },
          db := pre ++ { _id := old._id, Name := some "Buy oat milk", Description := some "2%",
                         createdAt := old.createdAt } :: post,
          console := [] } ∧
      (app mongooseCurrent .update sampleEnv
        (sampleReq sampleId (some "Buy oat milk") (some "2%")) [sampleTodo]).db.length
        = [sampleTodo].length :=
  ⟨by decide,
   update_existing mongooseCurrent sampleEnv (sampleReq sampleId (some "Buy oat milk") (some "2%"))
     [sampleTodo] { value := 10 } "Buy oat milk" "2%" (by decide)
     ⟨sampleTodo, List.mem_singleton.2 rfl, rfl⟩ rfl (by decide) rfl (by decide)⟩

/-! ## C5: Delete of a stored record -/

/-- C5: when the route parameter casts to the `_id` of a stored record, Delete
responds 200 with `{ message: 'Todo deleted' }` and the collection afterwards
is the collection before with exactly that one record removed, the others in
their order; in a collection whose `_id`s are pairwise different, as the
unique index on `_id` keeps them, a second Delete with the same parameter
responds 404 with `{ message: 'Todo not found' }` and changes nothing. -/
theorem delete_existing (m : Mongoose) (env env2 : Env) (req : Req) (db : Db) (oid : ObjectId)
    (hcast : m.castObjectId req.params.id = some oid)
    (hmem : ∃ t ∈ db, t._id = oid) :
    ∃ pre old post,
      db = pre ++ old :: post ∧ old._id = oid ∧ (∀ t ∈ pre, t._id ≠ oid) ∧
      app m .delete env req db =
        { step := .sent { status := 200, body := .object [("message", "Todo deleted")] },
          db := pre ++ post, console := [] } ∧
      ((db.map (fun t => t._id)).Nodup →
        app m .delete env2 req (app m .delete env req db).db =
          { step := .sent { status := 404, body := .object [("message", "Todo not found")] },
            db := pre ++ post, console := [] }) := by
  obtain ⟨old, hf⟩ := findById_isSome_of_mem hmem
  obtain ⟨pre, post, hdb, hpre, _, hdel⟩ := findById_split id hf
  have hid : old._id = oid := findById_some_id hf
  have happ : app m .delete env req db = _ :=
    app_of_send (r := .delete) (deleteTodo_some (m := m) env hcast hf)
  rw [hdel] at happ
  refine ⟨pre, old, post, hdb, hid, hpre, happ, ?_⟩
  intro huniq
  rw [happ]
  have habsent : ∀ t ∈ pre ++ post, t._id ≠ oid := by
    rw [hdb, List.map_append, List.map_cons] at huniq
    have hnot := (List.nodup_cons.1 (List.nodup_middle.1 huniq)).1
    intro t ht h
    apply hnot
    rw [hid, ← h, ← List.map_append]
    exact List.mem_map_of_mem (fun t => t._id) ht
  have hnone : Todo.findById oid (pre ++ post) = none := (findById_eq_none oid _).2 habsent
  exact app_of_send (r := .delete) (deleteTodo_none (m := m) env2 hcast hnone)

/-- Delete of the one stored record, then Delete again. -/
theorem delete_existing_witness :
    hexObjectId sampleId = some { value := 10 } ∧
    ∃ pre old post,
      [sampleTodo] = pre ++ old :: post ∧ old._id = { value := 10 } ∧
      (∀ t ∈ pre, t._id ≠ { value := 10 }) ∧
      app mongooseCurrent .delete sampleEnv (sampleReq sampleId none none) [sampleTodo] =
        { step := .sent { status := 200, body := .object [("message", "Todo deleted")] },
          db := pre ++ post, console := [] } ∧
      (([sampleTodo].map (fun t => t._id)).Nodup →
        app mongooseCurrent .delete sampleEnv (sampleReq sampleId none none)
            (app mongooseCurrent .delete sampleEnv (sampleReq sampleId none none)
              [sampleTodo]).db =
          { step := .sent { status := 404, body := .object [("message", "Todo not found")] },
            db := pre ++ post, console := [] }) :=
  ⟨by decide,
   delete_existing mongooseCurrent sampleEnv sampleEnv (sampleReq sampleId none none)
     [sampleTodo] { value := 10 } (by decide) ⟨sampleTodo, List.mem_singleton.2 rfl, rfl⟩⟩

/-! ## C6: Update is idempotent -/

/-- C6: for every collection, route parameter and body, a second Update with
the same parameter and body, applied to the collection the first one left,
ends exactly as the first one did: the same response (status and body), the
same collection, the same log.  When the response carries a record, its `_id`
and `createdAt` are those of a record stored before the first Update. -/
theorem update_idempotent (m : Mongoose) (env env2 : Env) (req : Req) (db : Db) :
    app m .update env2 req (app m .update env req db).db = app m .update env req db ∧
    (∀ t, (app m .update env req db).body? = some (.todo t) →
      ∃ old ∈ db, old._id = t._id ∧ old.createdAt = t.createdAt) := by
  cases hcast : m.castObjectId req.params.id with
  | none =>
    have h1 : app m .update env req db = _ :=
      app_of_reject (r := .update) (putTodo_cast_none (m := m) env db hcast)
    have h2 : app m .update env2 req db = _ :=
      app_of_reject (r := .update) (putTodo_cast_none (m := m) env2 db hcast)
    refine ⟨?_, ?_⟩
    · rw [h1, h2]
    · intro t ht
      rw [h1] at ht
      simp [Result.body?, errorBody] at ht
  | some oid =>
    cases hv : updateValidators
        (castUpdate m { Name := req.body.Name, Description := req.body.Description }) with
    | cons p ps =>
      have h1 : app m .update env req db = _ :=
        app_of_reject (r := .update) (putTodo_invalid (m := m) env db hcast hv)
      have h2 : app m .update env2 req db = _ :=
        app_of_reject (r := .update) (putTodo_invalid (m := m) env2 db hcast hv)
      refine ⟨?_, ?_⟩
      · rw [h1, h2]
      · intro t ht
        rw [h1] at ht
        simp [Result.body?, errorBody] at ht
    | nil =>
      cases hf : Todo.findById oid db with
      | none =>
        have h1 : app m .update env req db = _ :=
          app_of_send (r := .update) (putTodo_none (m := m) env hcast hv hf)
        have h2 : app m .update env2 req db = _ :=
          app_of_send (r := .update) (putTodo_none (m := m) env2 hcast hv hf)
        refine ⟨?_, ?_⟩
        · rw [h1]
          exact h2
        · intro t ht
          rw [h1] at ht
          simp [Result.body?, send] at ht
      | some old =>
        have h1 : app m .update env req db = _ :=
          app_of_send (r := .update) (putTodo_some (m := m) env hcast hv hf)
        have hf2 := findById_updateOne oid
          (applySet (castUpdate m { Name := req.body.Name, Description := req.body.Description }))
          (applySet_id _) db
        rw [hf, Option.map_some'] at hf2
        have h2 : app m .update env2 req (updateOne oid
            (applySet (castUpdate m { Name := req.body.Name, Description := req.body.Description }))
            db) = _ :=
          app_of_send (r := .update) (putTodo_some (m := m) env2 hcast hv hf2)
        rw [applySet_idem, updateOne_idem oid _ (applySet_id _) (applySet_idem _)] at h2
        refine ⟨?_, ?_⟩
        · rw [h1]
          exact h2
        · intro t ht
          rw [h1] at ht
          simp only [Result.body?, send, Option.some.injEq, Body.todo.injEq] at ht
          subst ht
          exact ⟨old, List.mem_of_find?_eq_some hf, rfl, rfl⟩

/-! ## C8: the store invariant -/

theorem applySet_valid {d : SetDoc} {t : Todo} (hv : updateValidators d = [])
    (ht : (∃ n, t.Name = some n ∧ n ≠ "") ∧ (∃ s, t.Description = some s ∧ s ≠ "")) :
    (∃ n, (applySet d t).Name = some n ∧ n ≠ "") ∧
    (∃ s, (applySet d t).Description = some s ∧ s ≠ "") := by
  obtain ⟨dn, dd⟩ := d
  simp only [updateValidators, List.append_eq_nil] at hv
  obtain ⟨hvn, hvd⟩ := hv
  refine ⟨?_, ?_⟩
  · cases dn with
    | none => exact ht.1
    | some v =>
      by_cases hc : checkRequired v = true
      · exact (checkRequired_iff v).1 hc
      · simp [hc] at hvn
  · cases dd with
    | none => exact ht.2
    | some v =>
      by_cases hc : checkRequired v = true
      · exact (checkRequired_iff v).1 hc
      · simp [hc] at hvd

theorem storeInvariant_updateOne {oid : ObjectId} {d : SetDoc} {db : Db}
    (hv : updateValidators d = []) (h : StoreInvariant db) :
    StoreInvariant (updateOne oid (applySet d) db) := by
  refine ⟨?_, ?_⟩
  · intro s hs
    rcases mem_updateOne hs with hs | ⟨t, ht, rfl⟩
    · exact h.1 s hs
    · exact applySet_valid hv (h.1 t ht)
  · rw [map_id_updateOne oid (applySet d) (applySet_id d) db]
    exact h.2

theorem storeInvariant_deleteOne {oid : ObjectId} {db : Db} (h : StoreInvariant db) :
    StoreInvariant (deleteOne oid db) := by
  refine ⟨?_, ?_⟩
  · intro s hs
    exact h.1 s ((deleteOne_sublist oid db).subset hs)
  · exact h.2.sublist ((deleteOne_sublist oid db).map (fun t => t._id))

theorem storeInvariant_step (m : Mongoose) (r : Route) (env : Env) (req : Req) {db : Db}
    (h : StoreInvariant db) : StoreInvariant (app m r env req db).db := by
  cases r with
  | list =>
    have h1 : app m .list env req db = send 200 (.todos (Todo.find db)) db :=
      app_of_send (r := .list) rfl
    rw [h1]
    exact h
  | create =>
    by_cases hv : validationResult req = []
    · obtain ⟨⟨n, hn, hne⟩, ⟨d, hd, hde⟩⟩ := (validationResult_eq_nil_iff req).1 hv
      have hpost := postTodo_valid env db hn hne hd hde
      by_cases hdup : (db.any (fun t => t._id = env.objectId)) = true
      · rw [if_pos hdup] at hpost
        rw [app_of_reject (m := m) (r := .create) hpost]
        exact h
      · rw [if_neg hdup] at hpost
        rw [app_of_send (m := m) (r := .create) hpost]
        have hfresh : ∀ t ∈ db, t._id ≠ env.objectId := by
          intro t ht hid
          exact hdup (List.any_eq_true.2 ⟨t, ht, decide_eq_true hid⟩)
        refine ⟨?_, ?_⟩
        · intro s hs
          rcases List.mem_append.1 hs with hs | hs
          · exact h.1 s hs
          · rw [List.mem_singleton.1 hs]
            exact ⟨⟨n, rfl, hne⟩, ⟨d, rfl, hde⟩⟩
        · show ((db ++ [Todo.new env (some n) (some d)]).map (fun t => t._id)).Nodup
          rw [List.map_append, List.map_singleton]
          refine List.Nodup.append h.2 (List.nodup_singleton _) ?_
          intro x hx1 hx2
          rw [List.mem_singleton.1 hx2] at hx1
          obtain ⟨t, ht, hid⟩ := List.mem_map.1 hx1
          exact hfresh t ht hid
    · rw [app_of_send (m := m) (r := .create) (postTodo_invalid env db hv)]
      exact h
  | update =>
    cases hcast : m.castObjectId req.params.id with
    | none =>
      have h1 : app m .update env req db = _ :=
        app_of_reject (r := .update) (putTodo_cast_none (m := m) env db hcast)
      rw [h1]
      exact h
    | some oid =>
      cases hv : updateValidators
          (castUpdate m { Name := req.body.Name, Description := req.body.Description }) with
      | cons p ps =>
        have h1 : app m .update env req db = _ :=
          app_of_reject (r := .update) (putTodo_invalid (m := m) env db hcast hv)
        rw [h1]
        exact h
      | nil =>
        cases hf : Todo.findById oid db with
        | none =>
          have h1 : app m .update env req db = _ :=
            app_of_send (r := .update) (putTodo_none (m := m) env hcast hv hf)
          rw [h1]
          exact h
        | some old =>
          have h1 : app m .update env req db = _ :=
            app_of_send (r := .update) (putTodo_some (m := m) env hcast hv hf)
          rw [h1]
          exact storeInvariant_updateOne hv h
  | delete =>
    cases hcast : m.castObjectId req.params.id with
    | none =>
      have h1 : app m .delete env req db = _ :=
        app_of_reject (r := .delete) (deleteTodo_cast_none (m := m) env db hcast)
      rw [h1]
      exact h
    | some oid =>
      cases hf : Todo.findById oid db with
      | none =>
        have h1 : app m .delete env req db = _ :=
          app_of_send (r := .delete) (deleteTodo_none (m := m) env hcast hf)
        rw [h1]
        exact h
      | some old =>
        have h1 : app m .delete env req db = _ :=
          app_of_send (r := .delete) (deleteTodo_some (m := m) env hcast hf)
        rw [h1]
        exact storeInvariant_deleteOne h

theorem storeInvariant_run (m : Mongoose) (reqs : List (Route × Env × Req)) :
    ∀ db, StoreInvariant db → StoreInvariant (run m reqs db) := by
  induction reqs with
  | nil => intro db h; exact h
  | cons x rest ih =>
    intro db h
    obtain ⟨r, env, req⟩ := x
    exact ih _ (storeInvariant_step m r env req h)

/-- C8: starting from the empty collection, after any sequence of List,
Create, Update and Delete requests with arbitrary route parameters and bodies
(bodies that omit a field or give the empty string included), every stored
record has a non-empty `Name` and a non-empty `Description`, and no two
stored records share an `_id`. -/
theorem store_invariant (m : Mongoose) (reqs : List (Route × Env × Req)) :
    (∀ t ∈ run m reqs [], (∃ n, t.Name = some n ∧ n ≠ "") ∧
      (∃ d, t.Description = some d ∧ d ≠ "")) ∧
    ((run m reqs []).map (fun t => t._id)).Nodup :=
  storeInvariant_run m reqs [] ⟨by simp, by simp⟩

/-! ## C9: only `Name` and `Description` are read from the body -/

theorem serve_congr {fn : Handler} {env : Env} {req1 req2 : Req} {db : Db}
    (h : fn env req1 db = fn env req2 db) : serve fn env req1 db = serve fn env req2 db := by
  simp only [serve, asyncHandler, errorMiddleware, h]

/-- C9: two request bodies that agree on `Name` and `Description`, whatever
their other fields are (a client-supplied `createdAt` or `_id` for instance),
give the same response, the same collection and the same log, on Create with
the same clock and generated ObjectId and on Update with the same route
parameter; and the `createdAt` and `_id` of a record Create responds with are
the clock reading and the generated ObjectId. -/
theorem body_extra_fields_ignored (m : Mongoose) (env : Env) (req1 req2 : Req) (db : Db)
    (hn : req1.body.Name = req2.body.Name)
    (hd : req1.body.Description = req2.body.Description) :
    app m .create env req1 db = app m .create env req2 db ∧
    (req1.params.id = req2.params.id → app m .update env req1 db = app m .update env req2 db) ∧
    (∀ t, (app m .create env req1 db).body? = some (.todo t) →
      t.createdAt = env.now ∧ t._id = env.objectId) := by
  refine ⟨?_, ?_, ?_⟩
  · apply serve_congr
    simp only [Route.handler, postTodo, validationResult, hn, hd]
  · intro hid
    apply serve_congr
    simp only [Route.handler, putTodo, hn, hd, hid]
  · intro t ht
    by_cases hv : validationResult req1 = []
    · obtain ⟨⟨n, hn1, hne⟩, ⟨d, hd1, hde⟩⟩ := (validationResult_eq_nil_iff req1).1 hv
      have hpost := postTodo_valid env db hn1 hne hd1 hde
      by_cases hdup : (db.any (fun t => t._id = env.objectId)) = true
      · rw [if_pos hdup] at hpost
        rw [app_of_reject (m := m) (r := .create) hpost] at ht
        simp [Result.body?, errorBody] at ht
      · rw [if_neg hdup] at hpost
        rw [app_of_send (m := m) (r := .create) hpost] at ht
        simp only [Result.body?, send, Option.some.injEq, Body.todo.injEq] at ht
        subst ht
        exact ⟨rfl, rfl⟩
    · rw [app_of_send (m := m) (r := .create) (postTodo_invalid env db hv)] at ht
      simp [Result.body?, send] at ht

/-- Two Create bodies that differ only in a client-supplied `createdAt` and `_id`. -/
theorem body_extra_fields_ignored_witness :
    app mongooseCurrent .create sampleEnv (sampleReq "" (some "Buy milk") (some "2%")) [] =
      app mongooseCurrent .create sampleEnv
        { params := { id := "" },
          body := { Name := some "Buy milk", Description := some "2%",
                    extra := [("createdAt", "2001-01-01"), ("_id", sampleId)] } } [] :=
  (body_extra_fields_ignored mongooseCurrent sampleEnv (sampleReq "" (some "Buy milk") (some "2%"))
    { params := { id := "" },
      body := { Name := some "Buy milk", Description := some "2%",
                extra := [("createdAt", "2001-01-01"), ("_id", sampleId)] } } [] rfl rfl).1

/-! ## C10: Update with an empty field -/

/-- C10: when the route parameter casts to the `_id` of a stored record and
the body gives the empty string as `Name` or as `Description`, the update
validators reject the write: the handler's promise is rejected with a
`ValidationError`, the response is the 500 of the error-handling middleware and
not a 400, and the collection is unchanged. -/
theorem update_empty_field_500 (m : Mongoose) (env : Env) (req : Req) (db : Db) (oid : ObjectId)
    (hcast : m.castObjectId req.params.id = some oid)
    (hmem : ∃ t ∈ db, t._id = oid)
    (h : req.body.Name = some "" ∨ req.body.Description = some "") :
    (∃ err, putTodo m env req db = { step := .thrown err, db := db, console := [] } ∧
      err.name = "ValidationError" ∧
      app m .update env req db =
        { step := .sent { status := 500,
                          body := .object [("message", "Something went wrong!"),
                                           ("error", err.message)] },
          db := db, console := [err.stack] }) ∧
    (app m .update env req db).status? ≠ some 400 ∧
    (app m .update env req db).status? = some 500 ∧
    (app m .update env req db).db = db ∧
    (∃ t ∈ (app m .update env req db).db, t._id = oid) := by
  obtain ⟨p, ps, hv⟩ := updateValidators_empty_string m h
  have hput := putTodo_invalid (m := m) env db hcast hv
  have happ : app m .update env req db = _ := app_of_reject (r := .update) hput
  refine ⟨⟨validationError "Validation failed" (p :: ps), hput, rfl, happ⟩, ?_, ?_, ?_, ?_⟩
  · rw [happ]
    simp [Result.status?]
  · rw [happ]
    rfl
  · rw [happ]
  · rw [happ]
    exact hmem

/-- Update of the stored record with an empty `Name`: 500 and the record kept. -/
theorem update_empty_field_500_witness :
    hexObjectId sampleId = some { value := 10 } ∧
    (app mongooseCurrent .update sampleEnv (sampleReq sampleId (some "") (some "2%"))
      [sampleTodo]).status? = some 500 ∧
    (app mongooseCurrent .update sampleEnv (sampleReq sampleId (some "") (some "2%"))
      [sampleTodo]).db = [sampleTodo] :=
  ⟨by decide,
   (update_empty_field_500 mongooseCurrent sampleEnv (sampleReq sampleId (some "") (some "2%"))
      [sampleTodo] { value := 10 } (by decide) ⟨sampleTodo, List.mem_singleton.2 rfl, rfl⟩
      (Or.inl rfl)).2.2.1,
   (update_empty_field_500 mongooseCurrent sampleEnv (sampleReq sampleId (some "") (some "2%"))
      [sampleTodo] { value := 10 } (by decide) ⟨sampleTodo, List.mem_singleton.2 rfl, rfl⟩
      (Or.inl rfl)).2.2.2.1⟩

end TodoServer
